import Mathlib

/-!
Shallow embedding of the D3JS model viewer (Three.js-based) core, covering:
- `ModelExtender` (src/modelExtender.ts): per-mesh original-geometry snapshots,
  geometry extension along the first coordinate, and reset;
- `SelectionManager` (src/utils/selectionManager.ts, memory-preserving variant):
  right-click selection with parent-chain walk-up, per-object texture memory,
  extension dead-zone;
- `TextureManager` (src/utils/textureManager.ts): material swap with lazy
  original-material stashing and reset;
- `GravityManager` (src/utils/gravityManager.ts): registered participants,
  stored original transforms, update, toggle;
- `ModelLoader.loadModel` / `App.loadModelAtPosition` (src/main.ts): error path.

Conventions: scene-graph objects and meshes are identified by `Nat` ids (the
source keys its maps by JS reference identity); `Float32Array` vertex buffers
are modelled as `List ℚ` (exact arithmetic in place of IEEE floats); the JS
`Map` objects become association lists `List (Nat × _)`; asynchronous awaits
resolve synchronously, so an animated extension is modelled at its final
frame (progress = 1).
-/

/-- Lookup in an association list keyed by `Nat` (models JS `Map.get`). -/
def mapGet {α : Type} : List (Nat × α) → Nat → Option α
  | [], _ => none
  | (k, v) :: rest, key => if k = key then some v else mapGet rest key

/-- Update/insert in an association list (models JS `Map.set`). -/
def mapSet {α : Type} : List (Nat × α) → Nat → α → List (Nat × α)
  | [], key, v => [(key, v)]
  | (k, w) :: rest, key, v =>
      if k = key then (k, v) :: rest else (k, w) :: mapSet rest key v

/-- Delete a key from an association list (models JS `Map.delete`). -/
def mapDel {α : Type} : List (Nat × α) → Nat → List (Nat × α)
  | [], _ => []
  | (k, w) :: rest, key => if k = key then rest else (k, w) :: mapDel rest key

namespace ModelExtender

/-- `scaleIdx factor i vs`: the body of the stride-3 loop building
`targetPositions` — entry at absolute index `i` is scaled by `(1 + factor)`
exactly when `i` is the first coordinate of its vertex triple
(`targetPositions[i] = originalX * (1 + factor)`; indices `i+1`, `i+2` copied). -/
def scaleIdx (factor : ℚ) : Nat → List ℚ → List ℚ
  | _, [] => []
  | i, v :: rest =>
      (if i % 3 = 0 then v * (1 + factor) else v) :: scaleIdx factor (i + 1) rest

/-- Target positions computed from the original snapshot (source lines 60–68). -/
def computeTarget (orig : List ℚ) (factor : ℚ) : List ℚ :=
  scaleIdx factor 0 orig

/-- In-place overwrite of a `Float32Array`: `positions[i] = src[i]` for the
indices both arrays have (writes past either end are ignored by typed arrays;
in every reachable state the two arrays share a length). -/
def writeArray : List ℚ → List ℚ → List ℚ
  | [], _ => []
  | dst, [] => dst
  | _ :: dst, s :: src => s :: writeArray dst src

/-- One lerp frame: `initial[i] + (target[i] - initial[i]) * progress`. -/
def lerpArray (ini target : List ℚ) (progress : ℚ) : List ℚ :=
  List.zipWith (fun x y => x + (y - x) * progress) ini target

/-- State of a `ModelExtender` together with the scene-side vertex buffers it
mutates: `scene` maps each mesh id to its current position array, and
`originalGeometries` is the extender's snapshot map. The source keys
snapshots by mesh and then by geometry; each mesh here carries its single
geometry, so the nested map flattens to one entry per mesh. -/
structure ExtState where
  scene : List (Nat × List ℚ)
  originalGeometries : List (Nat × List ℚ)
  deriving Repr, DecidableEq

/-- `storeOriginalGeometry`: copy the current position array into the
snapshot map (source lines 102–118). -/
def storeOriginalGeometry (s : ExtState) (mesh : Nat) : ExtState :=
  match mapGet s.scene mesh with
  | none => s
  | some positions =>
      { s with originalGeometries := mapSet s.originalGeometries mesh positions }

/-- `extendMeshGeometry` (source lines 31–99): lazily snapshot, compute the
target from the snapshot, then either lerp (modelled at the final frame,
progress = 1, of the `requestAnimationFrame` chain) or write the target
immediately. -/
def extendMeshGeometry (s : ExtState) (mesh : Nat) (factor : ℚ)
    (animate : Bool) : ExtState :=
  match mapGet s.scene mesh with
  | none => s
  | some positions =>
      let s1 := if (mapGet s.originalGeometries mesh).isSome then s
                else storeOriginalGeometry s mesh
      match mapGet s1.originalGeometries mesh with
      | none => s1
      | some orig =>
          let target := computeTarget orig factor
          let newPos := if animate then writeArray positions (lerpArray positions target 1)
                        else writeArray positions target
          { s1 with scene := mapSet s1.scene mesh newPos }

/-- `extendModel` (source lines 7–28): traverse the model's meshes (the
traversal filtered to meshes carrying geometry, as the source's
`instanceof` check does) and extend each. -/
def extendModel (s : ExtState) (model : List Nat) (factor : ℚ)
    (animate : Bool) : ExtState :=
  model.foldl (fun st mesh => extendMeshGeometry st mesh factor animate) s

/-- `resetMeshGeometry` (source lines 132–150): copy the snapshot back over
the live position array. -/
def resetMeshGeometry (s : ExtState) (mesh : Nat) : ExtState :=
  match mapGet s.originalGeometries mesh with
  | none => s
  | some orig =>
      match mapGet s.scene mesh with
      | none => s
      | some positions =>
          { s with scene := mapSet s.scene mesh (writeArray positions orig) }

/-- `resetModel` (source lines 121–129). -/
def resetModel (s : ExtState) (model : List Nat) : ExtState :=
  model.foldl (fun st mesh => resetMeshGeometry st mesh) s

/-- The reachable-state invariant for one mesh: its snapshot is `o` and its
live array has the snapshot's length. -/
def ExtInv (mesh : Nat) (o : List ℚ) (s : ExtState) : Prop :=
  mapGet s.originalGeometries mesh = some o ∧
  ∃ cur, mapGet s.scene mesh = some cur ∧ cur.length = o.length

/-- The fresh-or-captured disjunctive invariant used for reasoning about a
mesh from before its first deformation: either no snapshot exists yet and the
live array still holds `ps`, or the snapshot is exactly `ps`. -/
def FreshOrCaptured (mesh : Nat) (ps : List ℚ) (s : ExtState) : Prop :=
  (mapGet s.originalGeometries mesh = none ∧ mapGet s.scene mesh = some ps) ∨
  ExtInv mesh ps s

end ModelExtender

namespace TextureManager

/-- State of a `TextureManager` together with the material slots of the
scene's meshes. Materials are identified by reference ids: each
`new THREE.MeshStandardMaterial` takes the next fresh id from
`nextMaterial`. `material` maps each mesh id to its current material slot,
`originalMaterial` models the per-mesh `userData.originalMaterial` stash,
and `loadedTextures` is the load-once cache of texture paths. -/
structure TexState where
  material : List (Nat × Nat)
  originalMaterial : List (Nat × Nat)
  loadedTextures : List String
  nextMaterial : Nat
  deriving Repr, DecidableEq

/-- `loadTexture` (source lines 246–271): a cached path resolves immediately;
an uncached path resolves and is cached when the underlying loader succeeds
(`loadOk`) and rejects otherwise. The texture value itself is opaque here. -/
def loadTexture (t : TexState) (path : String) (loadOk : Bool) : TexState × Bool :=
  if path ∈ t.loadedTextures then (t, true)
  else if loadOk then ({ t with loadedTextures := path :: t.loadedTextures }, true)
  else (t, false)

/-- The traversal body of `applyTextureToModel` (source lines 288–297) for one
mesh: stash the pre-swap material if not already stashed, then assign the
shared new material. A `THREE.Mesh` always carries a material, so the
missing-slot branch is unreachable for scene meshes. -/
def applyMaterialToMesh (t : TexState) (m : Nat) (mesh : Nat) : TexState :=
  let t1 := match mapGet t.material mesh with
    | none => t
    | some cur =>
        if (mapGet t.originalMaterial mesh).isSome then t
        else { t with originalMaterial := mapSet t.originalMaterial mesh cur }
  { t1 with material := mapSet t1.material mesh m }

/-- `applyTextureToModel` (source lines 274–302): load (or reuse) the texture;
on success build one fresh shared material and assign it to every mesh of the
model; on failure the `catch` only logs and nothing is mutated. -/
def applyTextureToModel (t : TexState) (model : List Nat) (path : String)
    (loadOk : Bool) : TexState :=
  match loadTexture t path loadOk with
  | (t1, false) => t1
  | (t1, true) =>
      let m := t1.nextMaterial
      let t2 := { t1 with nextMaterial := t1.nextMaterial + 1 }
      model.foldl (fun tt mesh => applyMaterialToMesh tt m mesh) t2

/-- The traversal body of `resetModelMaterials` (source lines 308–312) for one
mesh: restore the stashed material if one exists (the stash is not cleared);
a mesh without a stash is left alone. -/
def resetMaterialMesh (t : TexState) (mesh : Nat) : TexState :=
  match mapGet t.originalMaterial mesh with
  | some om => { t with material := mapSet t.material mesh om }
  | none => t

/-- `resetModelMaterials` (source lines 305–313). -/
def resetModelMaterials (t : TexState) (model : List Nat) : TexState :=
  model.foldl resetMaterialMesh t

/-- The stash invariant for one mesh: either no texture swap has touched it
(no stash, slot still the pre-swap material `m0`), or the stash holds `m0`. -/
def StashInv (mesh m0 : Nat) (t : TexState) : Prop :=
  (mapGet t.originalMaterial mesh = none ∧ mapGet t.material mesh = some m0) ∨
  mapGet t.originalMaterial mesh = some m0

end TextureManager

/-- A 3-component vector of exact rationals (models `THREE.Vector3`). -/
structure Vec3 where
  x : ℚ
  y : ℚ
  z : ℚ
  deriving Repr, DecidableEq

/-- Componentwise `Vector3.add`. -/
def Vec3.add (a b : Vec3) : Vec3 := ⟨a.x + b.x, a.y + b.y, a.z + b.z⟩

namespace GravityManager

/-- State of a `GravityManager` together with the world transforms of the
scene's objects. Every `THREE.Object3D` carries a position and a quaternion,
so `positions` and `quats` are total over object ids. Orientations live in an
opaque type `Q`; the library's `rotateX`/`rotateY`/`rotateZ` are passed to
`update` as functions on `Q`. -/
structure GravState (Q : Type) where
  objects : List Nat
  originalPositions : List (Nat × Vec3)
  originalRotations : List (Nat × Q)
  objectVelocities : List (Nat × Vec3)
  objectRotations : List (Nat × Vec3)
  isActive : Bool
  positions : Nat → Vec3
  quats : Nat → Q

/-- `storeOriginalTransform` (gravityManager.ts lines 43–46): clone the
object's current position and quaternion into the original maps. -/
def storeOriginalTransform {Q : Type} (s : GravState Q) (object : Nat) :
    GravState Q :=
  { s with
    originalPositions := mapSet s.originalPositions object (s.positions object),
    originalRotations := mapSet s.originalRotations object (s.quats object) }

/-- `initializeObjectPhysics` (lines 49–63): record the drawn velocity and
rotation-speed vectors; the `Math.random()` draws arrive as inputs `rv`, `rr`. -/
def initializeObjectPhysics {Q : Type} (s : GravState Q) (object : Nat)
    (rv rr : Vec3) : GravState Q :=
  { s with
    objectVelocities := mapSet s.objectVelocities object rv,
    objectRotations := mapSet s.objectRotations object rr }

/-- `addObject` (lines 22–28): a no-op for an object already registered;
otherwise push it and record its transform and physics. -/
def addObject {Q : Type} (s : GravState Q) (object : Nat) (rv rr : Vec3) :
    GravState Q :=
  if object ∈ s.objects then s
  else
    initializeObjectPhysics
      (storeOriginalTransform { s with objects := s.objects ++ [object] } object)
      object rv rr

/-- `scanScene` (lines 30–40): `addObject` for each group directly under the
scene (`groups` lists them in traversal order; `rand` supplies the draws). -/
def scanScene {Q : Type} (s : GravState Q) (groups : List Nat)
    (rand : Nat → Vec3 × Vec3) : GravState Q :=
  groups.foldl (fun st g => addObject st g (rand g).1 (rand g).2) s

/-- The loop body of `resetObjects` (lines 86–95) for one object: restore
position and quaternion from the original maps when both are present. -/
def resetObjectStep {Q : Type} (st : GravState Q) (object : Nat) : GravState Q :=
  match mapGet st.originalPositions object, mapGet st.originalRotations object with
  | some p, some q =>
      { st with
        positions := fun o => if o = object then p else st.positions o,
        quats := fun o => if o = object then q else st.quats o }
  | _, _ => st

/-- `resetObjects` (lines 85–96). -/
def resetObjects {Q : Type} (s : GravState Q) : GravState Q :=
  s.objects.foldl resetObjectStep s

/-- `toggleGravity` (lines 66–82): flip the flag and reset on turning off.
The toggle button's DOM update is presentation only and not modelled. -/
def toggleGravity {Q : Type} (s : GravState Q) : GravState Q :=
  let s1 := { s with isActive := !s.isActive }
  if !s1.isActive then resetObjects s1 else s1

/-- The loop body of `update` (lines 102–125) for one object: advance the
position by the velocity, rotate, bounce above `originalY + maxHeight`
(`maxHeight = 10`), perturb and damp the horizontal velocity. The two
`Math.random()` draws arrive through `rand`; `rotX`/`rotY`/`rotZ` are the
library's axis rotations. The source reads `originalY` with `?.y || 0`. -/
def updateObjectStep {Q : Type} (rotX rotY rotZ : Q → ℚ → Q)
    (rand : Nat → ℚ × ℚ) (st : GravState Q) (object : Nat) : GravState Q :=
  match mapGet st.objectVelocities object, mapGet st.objectRotations object with
  | some velocity, some rotation =>
      let originalY := match mapGet st.originalPositions object with
                       | some p => p.y
                       | none => 0
      let newPos := Vec3.add (st.positions object) velocity
      let newQuat := rotZ (rotY (rotX (st.quats object) rotation.x) rotation.y)
                       rotation.z
      let v1 := if originalY + 10 < newPos.y
                then { velocity with y := -velocity.y * (1 / 2) }
                else velocity
      let v2 := { v1 with
                  x := (v1.x + (rand object).1) * (99 / 100),
                  z := (v1.z + (rand object).2) * (99 / 100) }
      { st with
        positions := fun o => if o = object then newPos else st.positions o,
        quats := fun o => if o = object then newQuat else st.quats o,
        objectVelocities := mapSet st.objectVelocities object v2 }
  | _, _ => st

/-- `update` (lines 99–126): inactive managers do nothing; otherwise step
every registered object. -/
def update {Q : Type} (rotX rotY rotZ : Q → ℚ → Q) (rand : Nat → ℚ × ℚ)
    (s : GravState Q) : GravState Q :=
  if !s.isActive then s
  else s.objects.foldl (updateObjectStep rotX rotY rotZ rand) s

end GravityManager

/-- A loaded GLTF asset; `scene` is the root group of the parsed asset graph
(`gltf.scene`), identified like every scene object by a `Nat` id. -/
structure GLTF where
  scene : Nat
  deriving Repr, DecidableEq

namespace ModelLoader

/-- `ModelLoader.loadModel` (modelLoader.ts lines 162–180): wrap the
underlying `GLTFLoader.load` callback API in a promise — resolve with the
asset on success, reject with the underlying loader's error on failure (the
progress callback only logs). The underlying loader's outcome per path
arrives as `loader`. -/
def loadModel (loader : String → Except String GLTF) (path : String) :
    Except String GLTF :=
  match loader path with
  | Except.ok gltf => Except.ok gltf
  | Except.error e => Except.error e

end ModelLoader

namespace App

/-- The slice of `App` state that `loadModelAtPosition` (main.ts) touches:
scene contents, the loaded-model list, object positions, and the console
error log. -/
structure AppState where
  sceneObjects : List Nat
  loadedModels : List Nat
  positions : Nat → Vec3
  consoleErrors : List String

/-- `App.loadModelAtPosition` (main.ts lines 63–74): await the load; on
success set the model root's position, add it to the scene and to
`loadedModels`, and return it; on failure log the error and return null. -/
def loadModelAtPosition (app : AppState) (loader : String → Except String GLTF)
    (modelPath : String) (position : Vec3) : AppState × Option Nat :=
  match ModelLoader.loadModel loader modelPath with
  | Except.ok model =>
      ({ app with
         positions := fun o => if o = model.scene then position else app.positions o,
         sceneObjects := app.sceneObjects ++ [model.scene],
         loadedModels := app.loadedModels ++ [model.scene] },
       some model.scene)
  | Except.error e =>
      ({ app with consoleErrors := app.consoleErrors ++ [e] }, none)

end App

namespace SelectionManager

/-- State of the memory-preserving `SelectionManager` variant (the second
class in selectionManager.ts) together with the `ModelExtender` and
`TextureManager` it owns and the selection panel's visibility. The panel,
model-name, slider and texture-selector DOM elements are taken as present
(when missing the source only degrades that feature to a logged no-op).
`boundingBox` holds the object the current `BoxHelper` wraps. -/
structure SelState where
  selectableObjects : List Nat
  selectedObject : Option Nat
  boundingBox : Option Nat
  ext : ModelExtender.ExtState
  currentExtensionFactor : ℚ
  isAnimating : Bool
  currentTexturePath : Option String
  modelTextures : List (Nat × String)
  tex : TextureManager.TexState
  panelVisible : Bool

/-- The parent-chain walk of `onRightClick` (selectionManager.ts lines
197–199): climb while the node has a parent and is not itself in the
candidate list. `chain` lists the hit object's ancestors nearest-first. -/
def walkUp (cands : List Nat) : Nat → List Nat → Nat
  | o, [] => o
  | o, pa :: rest => if o ∈ cands then o else walkUp cands pa rest

/-- `updateSelectionUI` (lines 445–486): show the panel and the model name,
reset the extension slider and factor to 0, and re-apply the remembered
texture if any (texture loads of remembered paths are cached, hence `true`
for the load outcome). `meshesOf` gives the meshes under each object. -/
def updateSelectionUI (meshesOf : Nat → List Nat) (s : SelState) : SelState :=
  match s.selectedObject with
  | none => s
  | some sel =>
      let s1 := { s with panelVisible := true, currentExtensionFactor := 0 }
      match s1.currentTexturePath with
      | some path =>
          { s1 with tex := TextureManager.applyTextureToModel s1.tex
                             (meshesOf sel) path true }
      | none => s1

/-- `selectObject` (lines 209–242): reset the previous object's extension and
remember its texture; replace the bounding box; set the new selection, zero
the extension factor, restore the new object's remembered texture path
(`modelTextures.get(object) || null`), and refresh the panel. -/
def selectObject (meshesOf : Nat → List Nat) (s : SelState) (object : Nat) :
    SelState :=
  let s1 := match s.selectedObject with
    | some prev =>
        let sE := { s with ext := ModelExtender.resetModel s.ext (meshesOf prev) }
        match sE.currentTexturePath with
        | some path => { sE with modelTextures := mapSet sE.modelTextures prev path }
        | none => sE
    | none => s
  let s2 := { s1 with boundingBox := none }
  let s3 := { s2 with
              selectedObject := some object,
              boundingBox := some object,
              currentExtensionFactor := 0,
              currentTexturePath := mapGet s1.modelTextures object }
  updateSelectionUI meshesOf s3

/-- `clearSelection` (lines 245–269): drop the bounding box; reset the
selected object's geometry and remember its texture; clear the selection and
current texture path; hide the panel. -/
def clearSelection (meshesOf : Nat → List Nat) (s : SelState) : SelState :=
  let s1 := { s with boundingBox := none }
  let s2 := match s1.selectedObject with
    | some sel =>
        let sE := { s1 with ext := ModelExtender.resetModel s1.ext (meshesOf sel) }
        match sE.currentTexturePath with
        | some path => { sE with modelTextures := mapSet sE.modelTextures sel path }
        | none => sE
    | none => s1
  { s2 with selectedObject := none, currentTexturePath := none,
            panelVisible := false }

/-- `onRightClick` (lines 187–207): with the ray's hits (nearest first) as
input, walk the nearest hit up to a registered candidate and select it, or
clear the selection when nothing was hit. `parentChain` lists each object's
ancestors nearest-first. -/
def onRightClick (meshesOf : Nat → List Nat) (parentChain : Nat → List Nat)
    (s : SelState) (hits : List Nat) : SelState :=
  match hits with
  | [] => clearSelection meshesOf s
  | hit :: _ =>
      let sel := walkUp s.selectableObjects hit (parentChain hit)
      if sel ∈ s.selectableObjects then selectObject meshesOf s sel else s

/-- `applyTexture` (lines 386–398): skip when nothing is selected or the path
is already current; otherwise apply the texture (`loadOk` is the underlying
load's outcome; a failure is caught inside `applyTextureToModel`) and record
the path both as current and in the per-object memory. -/
def applyTexture (meshesOf : Nat → List Nat) (s : SelState)
    (texturePath : String) (loadOk : Bool) : SelState :=
  match s.selectedObject with
  | none => s
  | some sel =>
      if some texturePath = s.currentTexturePath then s
      else
        let s1 := { s with tex := TextureManager.applyTextureToModel s.tex
                             (meshesOf sel) texturePath loadOk }
        { s1 with currentTexturePath := some texturePath,
                  modelTextures := mapSet s1.modelTextures sel texturePath }

/-- `resetTexture` (lines 403–411): restore the selected object's original
materials and forget its remembered path. -/
def resetTexture (meshesOf : Nat → List Nat) (s : SelState) : SelState :=
  match s.selectedObject with
  | none => s
  | some sel =>
      { s with tex := TextureManager.resetModelMaterials s.tex (meshesOf sel),
               currentTexturePath := none,
               modelTextures := mapDel s.modelTextures sel }

/-- `applyExtension` (lines 414–442): drop the call when nothing is selected
or an animation is in flight; ignore factors within the 0.01 dead-zone of the
current factor; otherwise run the (awaited) extension animation and record
the factor, clearing the in-flight flag in `finally`. Returns whether an
animation was started. The inner `none` branch is unreachable: it is guarded
by the `isNone` check. -/
def applyExtension (meshesOf : Nat → List Nat) (s : SelState) (factor : ℚ) :
    SelState × Bool :=
  if s.selectedObject.isNone || s.isAnimating then (s, false)
  else if |factor - s.currentExtensionFactor| < 1 / 100 then (s, false)
  else
    match s.selectedObject with
    | none => (s, false)
    | some sel =>
        let s1 := { s with isAnimating := true }
        let s2 := { s1 with
                    ext := ModelExtender.extendModel s1.ext (meshesOf sel) factor true }
        ({ s2 with currentExtensionFactor := factor, isAnimating := false }, true)

end SelectionManager

/-! #### end of definitions / start of theorems -/


theorem mapGet_mapSet_self {α : Type} (m : List (Nat × α)) (k : Nat) (v : α) :
    mapGet (mapSet m k v) k = some v := by
  induction m with
  | nil => simp [mapGet, mapSet]
  | cons hd tl ih =>
    obtain ⟨k0, v0⟩ := hd
    by_cases h : k0 = k
    · simp [mapGet, mapSet, h]
    · simp [mapGet, mapSet, h, ih]

theorem mapGet_mapSet_ne {α : Type} (m : List (Nat × α)) (k k1 : Nat) (v : α)
    (h : k ≠ k1) : mapGet (mapSet m k v) k1 = mapGet m k1 := by
  induction m with
  | nil => simp [mapGet, mapSet, h]
  | cons hd tl ih =>
    obtain ⟨k0, v0⟩ := hd
    by_cases h0 : k0 = k
    · subst h0
      simp [mapGet, mapSet, h]
    · simp only [mapSet, if_neg h0, mapGet]
      by_cases h1 : k0 = k1 <;> simp [h1, ih]

namespace ModelExtender

theorem scaleIdx_length (factor : ℚ) (i : Nat) (l : List ℚ) :
    (scaleIdx factor i l).length = l.length := by
  induction l generalizing i with
  | nil => rfl
  | cons v rest ih => simp [scaleIdx, ih]

theorem computeTarget_length (orig : List ℚ) (factor : ℚ) :
    (computeTarget orig factor).length = orig.length := by
  simp [computeTarget, scaleIdx_length]

theorem writeArray_length (dst src : List ℚ) :
    (writeArray dst src).length = dst.length := by
  induction dst generalizing src with
  | nil => cases src <;> rfl
  | cons d rest ih => cases src <;> simp [writeArray, ih]

theorem writeArray_eq_of_length (dst src : List ℚ) (h : dst.length = src.length) :
    writeArray dst src = src := by
  induction dst generalizing src with
  | nil => cases src with
    | nil => rfl
    | cons s rest => simp at h
  | cons d rest ih =>
    cases src with
    | nil => simp at h
    | cons s srest =>
      simp only [List.length_cons, Nat.succ.injEq] at h
      simp [writeArray, ih srest h]

theorem lerpArray_one (ini target : List ℚ) (h : ini.length = target.length) :
    lerpArray ini target 1 = target := by
  induction ini generalizing target with
  | nil => cases target with
    | nil => rfl
    | cons t rest => simp at h
  | cons x rest ih =>
    cases target with
    | nil => simp at h
    | cons y trest =>
      simp only [List.length_cons, Nat.succ.injEq] at h
      have step : x + (y - x) * 1 = y := by ring
      simp only [lerpArray, List.zipWith_cons_cons, step]
      exact congrArg (y :: ·) (ih trest h)

end ModelExtender

/-- A predicate preserved by every step of a fold is preserved by the fold. -/
theorem foldl_preserve {σ α : Type} (f : σ → α → σ) (Inv : σ → Prop)
    (h : ∀ s a, Inv s → Inv (f s a)) :
    ∀ (l : List α) (s : σ), Inv s → Inv (l.foldl f s) := by
  intro l
  induction l with
  | nil => intro s hs; exact hs
  | cons a rest ih => intro s hs; exact ih (f s a) (h s a hs)

/-- If `Inv` is preserved by every step, `P` is preserved by every step, and
stepping the distinguished element `m0` from `Inv` establishes `P`, then a
fold over a list containing `m0` ends in `P`. -/
theorem foldl_establish {σ α : Type} (f : σ → α → σ) (Inv P : σ → Prop) (m0 : α)
    (hInv : ∀ s a, Inv s → Inv (f s a))
    (hP : ∀ s a, P s → P (f s a))
    (hEst : ∀ s, Inv s → P (f s m0)) :
    ∀ (l : List α) (s : σ), m0 ∈ l → Inv s → P (l.foldl f s) := by
  intro l
  induction l with
  | nil => intro s hm; exact absurd hm (List.not_mem_nil m0)
  | cons a rest ih =>
    intro s hm hs
    rcases List.mem_cons.mp hm with heq | htail
    · subst heq
      exact foldl_preserve f P hP rest (f s m0) (hEst s hs)
    · exact ih (f s a) htail (hInv s a hs)

namespace ModelExtender

/-- Extending one mesh never disturbs an already-captured snapshot of any
mesh: the `originalGeometries.has` guard skips the store for the mesh itself,
and stores for other meshes touch other keys. -/
theorem extendMeshGeometry_snapshot_stable (s : ExtState) (mesh m1 : Nat)
    (factor : ℚ) (animate : Bool) (snap : List ℚ)
    (h : mapGet s.originalGeometries mesh = some snap) :
    mapGet (extendMeshGeometry s m1 factor animate).originalGeometries mesh = some snap := by
  unfold extendMeshGeometry
  cases hscene : mapGet s.scene m1 with
  | none => simpa [hscene] using h
  | some positions =>
    by_cases hm : m1 = mesh
    · subst hm
      simp [hscene, h, Option.isSome]
    · cases hsnap1 : mapGet s.originalGeometries m1 with
      | some o1 => simp [hscene, hsnap1, h]
      | none =>
        have hset : mapGet (mapSet s.originalGeometries m1 positions) mesh = some snap := by
          rw [mapGet_mapSet_ne _ _ _ _ hm]; exact h
        have hself : mapGet (mapSet s.originalGeometries m1 positions) m1 = some positions :=
          mapGet_mapSet_self _ _ _
        simp [hscene, hsnap1, storeOriginalGeometry, hself, hset]

/-- Resetting a mesh never touches the snapshot map. -/
theorem resetMeshGeometry_snapshot_eq (s : ExtState) (m1 : Nat) :
    (resetMeshGeometry s m1).originalGeometries = s.originalGeometries := by
  unfold resetMeshGeometry
  cases h1 : mapGet s.originalGeometries m1 with
  | none => rfl
  | some orig =>
    cases h2 : mapGet s.scene m1 with
    | none => rfl
    | some positions => rfl

/-- Extending mesh `m1` leaves the live position array of any other mesh
untouched. -/
theorem extendMeshGeometry_scene_other (s : ExtState) (mesh m1 : Nat)
    (factor : ℚ) (animate : Bool) (hm : m1 ≠ mesh) :
    mapGet (extendMeshGeometry s m1 factor animate).scene mesh = mapGet s.scene mesh := by
  unfold extendMeshGeometry
  cases hscene : mapGet s.scene m1 with
  | none => rfl
  | some positions =>
    cases hsnap1 : mapGet s.originalGeometries m1 with
    | some o1 => simp [hscene, hsnap1, mapGet_mapSet_ne _ _ _ _ hm]
    | none =>
      have hself : mapGet (mapSet s.originalGeometries m1 positions) m1 = some positions :=
        mapGet_mapSet_self _ _ _
      simp [hscene, hsnap1, storeOriginalGeometry, hself, mapGet_mapSet_ne _ _ _ _ hm]

/-- Resetting mesh `m1` leaves the live position array of any other mesh
untouched. -/
theorem resetMeshGeometry_scene_other (s : ExtState) (mesh m1 : Nat)
    (hm : m1 ≠ mesh) :
    mapGet (resetMeshGeometry s m1).scene mesh = mapGet s.scene mesh := by
  unfold resetMeshGeometry
  cases h1 : mapGet s.originalGeometries m1 with
  | none => rfl
  | some orig =>
    cases h2 : mapGet s.scene m1 with
    | none => rfl
    | some positions => simp [mapGet_mapSet_ne _ _ _ _ hm]

/-- Extending a mesh whose snapshot is already captured (lengths agreeing, as
in every reachable state) sets its live array to the target computed from the
snapshot — in both the animated branch (final frame) and the immediate one. -/
theorem extendMeshGeometry_at_self (s : ExtState) (mesh : Nat) (factor : ℚ)
    (animate : Bool) (orig ps : List ℚ)
    (hsnap : mapGet s.originalGeometries mesh = some orig)
    (hscene : mapGet s.scene mesh = some ps)
    (hlen : ps.length = orig.length) :
    mapGet (extendMeshGeometry s mesh factor animate).scene mesh
      = some (computeTarget orig factor) ∧
    mapGet (extendMeshGeometry s mesh factor animate).originalGeometries mesh
      = some orig := by
  have hlt : ps.length = (computeTarget orig factor).length := by
    rw [computeTarget_length]; exact hlen
  have hw : writeArray ps (computeTarget orig factor) = computeTarget orig factor :=
    writeArray_eq_of_length _ _ hlt
  have hlerp : lerpArray ps (computeTarget orig factor) 1 = computeTarget orig factor :=
    lerpArray_one _ _ hlt
  unfold extendMeshGeometry
  cases animate with
  | true => simp [hscene, hsnap, hlerp, hw, mapGet_mapSet_self]
  | false => simp [hscene, hsnap, hw, mapGet_mapSet_self]

/-- First deformation of a fresh mesh: the snapshot is captured from the live
array, and the live array becomes the target computed from that snapshot. -/
theorem extendMeshGeometry_fresh (s : ExtState) (mesh : Nat) (factor : ℚ)
    (animate : Bool) (ps : List ℚ)
    (hsnap : mapGet s.originalGeometries mesh = none)
    (hscene : mapGet s.scene mesh = some ps) :
    mapGet (extendMeshGeometry s mesh factor animate).scene mesh
      = some (computeTarget ps factor) ∧
    mapGet (extendMeshGeometry s mesh factor animate).originalGeometries mesh
      = some ps := by
  have hlt : ps.length = (computeTarget ps factor).length := by
    rw [computeTarget_length]
  have hw : writeArray ps (computeTarget ps factor) = computeTarget ps factor :=
    writeArray_eq_of_length _ _ hlt
  have hlerp : lerpArray ps (computeTarget ps factor) 1 = computeTarget ps factor :=
    lerpArray_one _ _ hlt
  unfold extendMeshGeometry
  have hstore : mapGet (storeOriginalGeometry s mesh).originalGeometries mesh = some ps := by
    simp [storeOriginalGeometry, hscene, mapGet_mapSet_self]
  have hstoreScene : (storeOriginalGeometry s mesh).scene = s.scene := by
    simp [storeOriginalGeometry, hscene]
  cases animate with
  | true => simp [hscene, hsnap, hstore, hstoreScene, hlerp, hw, mapGet_mapSet_self]
  | false => simp [hscene, hsnap, hstore, hstoreScene, hw, mapGet_mapSet_self]

theorem ExtInv_extendMeshGeometry (mesh : Nat) (o : List ℚ) (factor : ℚ)
    (animate : Bool) (s : ExtState) (m1 : Nat) (h : ExtInv mesh o s) :
    ExtInv mesh o (extendMeshGeometry s m1 factor animate) := by
  obtain ⟨hsnap, cur, hscene, hlen⟩ := h
  by_cases hm : m1 = mesh
  · subst hm
    obtain ⟨h1, h2⟩ := extendMeshGeometry_at_self s m1 factor animate o cur hsnap hscene hlen
    exact ⟨h2, computeTarget o factor, h1, computeTarget_length o factor⟩
  · refine ⟨extendMeshGeometry_snapshot_stable s mesh m1 factor animate o hsnap, cur, ?_, hlen⟩
    rw [extendMeshGeometry_scene_other s mesh m1 factor animate hm]
    exact hscene

theorem ExtInv_resetMeshGeometry (mesh : Nat) (o : List ℚ) (s : ExtState)
    (m1 : Nat) (h : ExtInv mesh o s) : ExtInv mesh o (resetMeshGeometry s m1) := by
  obtain ⟨hsnap, cur, hscene, hlen⟩ := h
  refine ⟨by rw [resetMeshGeometry_snapshot_eq]; exact hsnap, ?_⟩
  by_cases hm : m1 = mesh
  · subst hm
    unfold resetMeshGeometry
    rw [hsnap, hscene]
    refine ⟨writeArray cur o, ?_, ?_⟩
    · simp [mapGet_mapSet_self]
    · rw [writeArray_length]; exact hlen
  · exact ⟨cur, by rw [resetMeshGeometry_scene_other s mesh m1 hm]; exact hscene, hlen⟩

/-- Extending mesh `m1` leaves the snapshot entry of any other mesh unchanged
(whether or not `m1` itself gets freshly snapshotted). -/
theorem extendMeshGeometry_snapshot_other (s : ExtState) (mesh m1 : Nat)
    (factor : ℚ) (animate : Bool) (hm : m1 ≠ mesh) :
    mapGet (extendMeshGeometry s m1 factor animate).originalGeometries mesh
      = mapGet s.originalGeometries mesh := by
  unfold extendMeshGeometry
  cases hscene : mapGet s.scene m1 with
  | none => rfl
  | some positions =>
    cases hsnap1 : mapGet s.originalGeometries m1 with
    | some o1 => simp [hscene, hsnap1]
    | none =>
      have hself : mapGet (mapSet s.originalGeometries m1 positions) m1 = some positions :=
        mapGet_mapSet_self _ _ _
      simp [hscene, hsnap1, storeOriginalGeometry, hself, mapGet_mapSet_ne _ _ _ _ hm]

/-- Under the reachable-state invariant, every extension pass over a model
containing the mesh ends with the mesh's live array equal to the target
computed from its snapshot. -/
theorem extendModel_scene_result (model : List Nat) (mesh : Nat) (o : List ℚ)
    (factor : ℚ) (animate : Bool) (s : ExtState)
    (hmem : mesh ∈ model) (hinv : ExtInv mesh o s) :
    mapGet (extendModel s model factor animate).scene mesh
      = some (computeTarget o factor) ∧
    mapGet (extendModel s model factor animate).originalGeometries mesh = some o := by
  have key := foldl_establish
    (fun st m => extendMeshGeometry st m factor animate)
    (ExtInv mesh o)
    (fun st => mapGet st.scene mesh = some (computeTarget o factor) ∧
               mapGet st.originalGeometries mesh = some o)
    mesh
    (fun st m h => ExtInv_extendMeshGeometry mesh o factor animate st m h)
    (fun st m h => by
      obtain ⟨hsc, hsn⟩ := h
      by_cases hme : m = mesh
      · subst hme
        obtain ⟨h1, h2⟩ := extendMeshGeometry_at_self st m factor animate o
          (computeTarget o factor) hsn hsc (computeTarget_length o factor)
        exact ⟨h1, h2⟩
      · refine ⟨?_, ?_⟩
        · rw [extendMeshGeometry_scene_other st mesh m factor animate hme]; exact hsc
        · rw [extendMeshGeometry_snapshot_other st mesh m factor animate hme]; exact hsn)
    (fun st h => by
      obtain ⟨hsn, cur, hsc, hlen⟩ := h
      exact extendMeshGeometry_at_self st mesh factor animate o cur hsn hsc hlen)
    model s hmem hinv
  exact ⟨key.1, key.2⟩

/-- Resetting a snapshotted mesh writes the snapshot over its live array. -/
theorem resetMeshGeometry_at_self (st : ExtState) (mesh : Nat) (o cur : List ℚ)
    (hsn : mapGet st.originalGeometries mesh = some o)
    (hsc : mapGet st.scene mesh = some cur)
    (hlen : cur.length = o.length) :
    mapGet (resetMeshGeometry st mesh).scene mesh = some o := by
  unfold resetMeshGeometry
  rw [hsn, hsc]
  have hw : writeArray cur o = o := writeArray_eq_of_length cur o hlen
  simp [hw, mapGet_mapSet_self]

/-- Resetting a mesh with no snapshot is a no-op. -/
theorem resetMeshGeometry_noop_of_none (st : ExtState) (mesh : Nat)
    (hn : mapGet st.originalGeometries mesh = none) :
    resetMeshGeometry st mesh = st := by
  unfold resetMeshGeometry
  rw [hn]

/-- Under the reachable-state invariant, a reset pass over a model containing
the mesh ends with the mesh's live array equal to its snapshot. -/
theorem resetModel_scene_result (model : List Nat) (mesh : Nat) (o : List ℚ)
    (s : ExtState) (hmem : mesh ∈ model) (hinv : ExtInv mesh o s) :
    mapGet (resetModel s model).scene mesh = some o := by
  have key := foldl_establish
    (fun st m => resetMeshGeometry st m)
    (ExtInv mesh o)
    (fun st => mapGet st.scene mesh = some o ∧
               mapGet st.originalGeometries mesh = some o)
    mesh
    (fun st m h => ExtInv_resetMeshGeometry mesh o st m h)
    (fun st m h => by
      obtain ⟨hsc, hsn⟩ := h
      by_cases hme : m = mesh
      · subst hme
        exact ⟨resetMeshGeometry_at_self st m o o hsn hsc rfl,
               by rw [resetMeshGeometry_snapshot_eq]; exact hsn⟩
      · constructor
        · rw [resetMeshGeometry_scene_other st mesh m hme]; exact hsc
        · rw [resetMeshGeometry_snapshot_eq]; exact hsn)
    (fun st h => by
      obtain ⟨hsn, cur, hsc, hlen⟩ := h
      exact ⟨resetMeshGeometry_at_self st mesh o cur hsn hsc hlen,
             by rw [resetMeshGeometry_snapshot_eq]; exact hsn⟩)
    model s hmem hinv
  exact key.1

theorem FreshOrCaptured_extendMeshGeometry (mesh : Nat) (ps : List ℚ)
    (factor : ℚ) (animate : Bool) (s : ExtState) (m1 : Nat)
    (h : FreshOrCaptured mesh ps s) :
    FreshOrCaptured mesh ps (extendMeshGeometry s m1 factor animate) := by
  rcases h with ⟨hnone, hscene⟩ | hinv
  · by_cases hme : m1 = mesh
    · subst hme
      obtain ⟨h1, h2⟩ := extendMeshGeometry_fresh s m1 factor animate ps hnone hscene
      exact Or.inr ⟨h2, computeTarget ps factor, h1, computeTarget_length ps factor⟩
    · refine Or.inl ⟨?_, ?_⟩
      · rw [extendMeshGeometry_snapshot_other s mesh m1 factor animate hme]; exact hnone
      · rw [extendMeshGeometry_scene_other s mesh m1 factor animate hme]; exact hscene
  · exact Or.inr (ExtInv_extendMeshGeometry mesh ps factor animate s m1 hinv)

theorem FreshOrCaptured_extendModel (mesh : Nat) (ps : List ℚ) (model : List Nat)
    (factor : ℚ) (animate : Bool) (s : ExtState)
    (h : FreshOrCaptured mesh ps s) :
    FreshOrCaptured mesh ps (extendModel s model factor animate) :=
  foldl_preserve _ (FreshOrCaptured mesh ps)
    (fun st m hst => FreshOrCaptured_extendMeshGeometry mesh ps factor animate st m hst)
    model s h

/-- If a mesh was never snapshotted, a reset pass leaves its live array alone
(the per-mesh reset is guarded by the snapshot lookup). -/
theorem resetModel_scene_of_no_snapshot (model : List Nat) (mesh : Nat)
    (ps : List ℚ) (s : ExtState)
    (hnone : mapGet s.originalGeometries mesh = none)
    (hscene : mapGet s.scene mesh = some ps) :
    mapGet (resetModel s model).scene mesh = some ps := by
  have key := foldl_preserve
    (fun st m => resetMeshGeometry st m)
    (fun st => mapGet st.originalGeometries mesh = none ∧
               mapGet st.scene mesh = some ps)
    (fun st m h => by
      obtain ⟨hn, hs⟩ := h
      by_cases hme : m = mesh
      · subst hme
        have hnoop := resetMeshGeometry_noop_of_none st m hn
        show mapGet (resetMeshGeometry st m).originalGeometries m = none ∧
             mapGet (resetMeshGeometry st m).scene m = some ps
        rw [hnoop]
        exact ⟨hn, hs⟩
      · constructor
        · rw [resetMeshGeometry_snapshot_eq]; exact hn
        · rw [resetMeshGeometry_scene_other st mesh m hme]; exact hs)
    model s ⟨hnone, hscene⟩
  exact key.2

/-- `get?` of the stride-3 scaling loop: entry `n` of `scaleIdx factor i l` is
entry `n` of `l`, scaled iff the absolute index `i + n` is a triple start. -/
theorem scaleIdx_get? (factor : ℚ) (i n : Nat) (l : List ℚ) :
    (scaleIdx factor i l).get? n
      = (l.get? n).map (fun v => if (i + n) % 3 = 0 then v * (1 + factor) else v) := by
  induction l generalizing i n with
  | nil => simp [scaleIdx]
  | cons v rest ih =>
    cases n with
    | zero => simp [scaleIdx]
    | succ k =>
      have harith : i + 1 + k = i + (k + 1) := by omega
      have step : (scaleIdx factor i (v :: rest)).get? (k + 1)
          = (scaleIdx factor (i + 1) rest).get? k := rfl
      rw [step, ih (i + 1) k, harith]
      rfl

end ModelExtender

open ModelExtender in
/-- C1: for every mesh of a model and every sequence of extension factors
(with or without animation) applied via `extendModel`, a subsequent
`resetModel` sets the mesh's vertex position array to exactly the values it
held before the first deformation — the values captured in the original
snapshot. -/
theorem C1_reset_restores_original
    (model : List Nat) (mesh : Nat) (fs : List (ℚ × Bool)) (s : ExtState)
    (ps : List ℚ)
    (hmem : mesh ∈ model)
    (hfresh : mapGet s.originalGeometries mesh = none)
    (hscene : mapGet s.scene mesh = some ps) :
    mapGet (resetModel
      (fs.foldl (fun st fa => extendModel st model fa.1 fa.2) s)
      model).scene mesh = some ps := by
  have hD : FreshOrCaptured mesh ps
      (fs.foldl (fun st fa => extendModel st model fa.1 fa.2) s) :=
    foldl_preserve _ (FreshOrCaptured mesh ps)
      (fun st fa h => FreshOrCaptured_extendModel mesh ps model fa.1 fa.2 st h)
      fs s (Or.inl ⟨hfresh, hscene⟩)
  rcases hD with ⟨hn, hs⟩ | hinv
  · exact resetModel_scene_of_no_snapshot model mesh ps _ hn hs
  · exact resetModel_scene_result model mesh ps _ hmem hinv

/-- C1 witness: a one-mesh model, unit snapshot `[1, 2, 3]`, two extensions
(factor 1/2 immediate, factor 2 animated), then reset. -/
theorem C1_reset_restores_original_witness :
    ((0 ∈ [0]) ∧
     mapGet (ModelExtender.ExtState.mk [(0, [1, 2, 3])] []).originalGeometries 0 = none ∧
     mapGet (ModelExtender.ExtState.mk [(0, [1, 2, 3])] []).scene 0 = some [1, 2, 3]) ∧
    mapGet (ModelExtender.resetModel
      (([((1 : ℚ) / 2, false), (2, true)]).foldl
        (fun st fa => ModelExtender.extendModel st [0] fa.1 fa.2)
        (ModelExtender.ExtState.mk [(0, [1, 2, 3])] []))
      [0]).scene 0 = some [1, 2, 3] :=
  ⟨⟨by decide, by decide, by decide⟩,
   C1_reset_restores_original [0] 0 [((1 : ℚ) / 2, false), (2, true)]
     (ModelExtender.ExtState.mk [(0, [1, 2, 3])] []) [1, 2, 3]
     (by decide) (by decide) (by decide)⟩

open ModelExtender in
/-- C2: once a mesh has an entry in `originalGeometries`, any further
`extendModel` or `resetModel` call leaves that stored snapshot unchanged —
the `has` guard skips the store for a captured mesh and reset never writes
the snapshot map. -/
theorem C2_snapshot_never_overwritten
    (s : ExtState) (mesh : Nat) (snap : List ℚ)
    (hsnap : mapGet s.originalGeometries mesh = some snap)
    (model : List Nat) (factor : ℚ) (animate : Bool) :
    mapGet (extendModel s model factor animate).originalGeometries mesh = some snap ∧
    mapGet (resetModel s model).originalGeometries mesh = some snap := by
  constructor
  · exact foldl_preserve _ (fun st => mapGet st.originalGeometries mesh = some snap)
      (fun st m h => extendMeshGeometry_snapshot_stable st mesh m factor animate snap h)
      model s hsnap
  · exact foldl_preserve (fun st m => resetMeshGeometry st m)
      (fun st => mapGet st.originalGeometries mesh = some snap)
      (fun st m h => by
        show mapGet (resetMeshGeometry st m).originalGeometries mesh = some snap
        rw [resetMeshGeometry_snapshot_eq]; exact h)
      model s hsnap

/-- C2 witness: a captured snapshot `[1, 2, 3]` survives an extension by 5 of
a two-mesh model and a reset. -/
theorem C2_snapshot_never_overwritten_witness :
    (mapGet (ModelExtender.ExtState.mk [(0, [7, 8, 9]), (1, [4, 5, 6])]
        [(0, [1, 2, 3])]).originalGeometries 0 = some [1, 2, 3]) ∧
    mapGet (ModelExtender.extendModel
      (ModelExtender.ExtState.mk [(0, [7, 8, 9]), (1, [4, 5, 6])] [(0, [1, 2, 3])])
      [0, 1] 5 false).originalGeometries 0 = some [1, 2, 3] ∧
    mapGet (ModelExtender.resetModel
      (ModelExtender.ExtState.mk [(0, [7, 8, 9]), (1, [4, 5, 6])] [(0, [1, 2, 3])])
      [0, 1]).originalGeometries 0 = some [1, 2, 3] :=
  ⟨by decide,
   (C2_snapshot_never_overwritten
     (ModelExtender.ExtState.mk [(0, [7, 8, 9]), (1, [4, 5, 6])] [(0, [1, 2, 3])])
     0 [1, 2, 3] (by decide) [0, 1] 5 false).1,
   (C2_snapshot_never_overwritten
     (ModelExtender.ExtState.mk [(0, [7, 8, 9]), (1, [4, 5, 6])] [(0, [1, 2, 3])])
     0 [1, 2, 3] (by decide) [0, 1] 5 false).2⟩

open ModelExtender in
/-- C4: with animation disabled, `extendModel` sets a snapshotted mesh's live
array to the target computed from the stored snapshot, and that target scales
exactly the first coordinate of each vertex triple by `(1 + factor)`, copying
the other two coordinates from the snapshot. -/
theorem C4_extend_scales_first_coordinate
    (model : List Nat) (mesh : Nat) (factor : ℚ) (s : ExtState)
    (orig cur : List ℚ)
    (hmem : mesh ∈ model)
    (hsnap : mapGet s.originalGeometries mesh = some orig)
    (hscene : mapGet s.scene mesh = some cur)
    (hlen : cur.length = orig.length) :
    mapGet (extendModel s model factor false).scene mesh
      = some (computeTarget orig factor) ∧
    ∀ j (h1 : 3 * j < orig.length) (h2 : 3 * j + 1 < orig.length)
      (h3 : 3 * j + 2 < orig.length),
      (computeTarget orig factor).get? (3 * j)
          = some (orig.get ⟨3 * j, h1⟩ * (1 + factor)) ∧
      (computeTarget orig factor).get? (3 * j + 1)
          = some (orig.get ⟨3 * j + 1, h2⟩) ∧
      (computeTarget orig factor).get? (3 * j + 2)
          = some (orig.get ⟨3 * j + 2, h3⟩) := by
  constructor
  · exact (extendModel_scene_result model mesh orig factor false s hmem
      ⟨hsnap, cur, hscene, hlen⟩).1
  · intro j h1 h2 h3
    have g1 : orig.get? (3 * j) = some (orig.get ⟨3 * j, h1⟩) := List.get?_eq_get h1
    have g2 : orig.get? (3 * j + 1) = some (orig.get ⟨3 * j + 1, h2⟩) := List.get?_eq_get h2
    have g3 : orig.get? (3 * j + 2) = some (orig.get ⟨3 * j + 2, h3⟩) := List.get?_eq_get h3
    have m1 : (0 + 3 * j) % 3 = 0 := by omega
    have m2 : (0 + (3 * j + 1)) % 3 = 1 := by omega
    have m3 : (0 + (3 * j + 2)) % 3 = 2 := by omega
    refine ⟨?_, ?_, ?_⟩
    · rw [computeTarget, scaleIdx_get?, g1, m1]
      simp
    · rw [computeTarget, scaleIdx_get?, g2, m2]
      simp
    · rw [computeTarget, scaleIdx_get?, g3, m3]
      simp

/-- C4 witness: snapshot `[1, 2, 3]`, factor 1: the live array becomes
`[2, 2, 3]` — first coordinate doubled, the other two unchanged. -/
theorem C4_extend_scales_first_coordinate_witness :
    ((0 ∈ [0]) ∧
     mapGet (ModelExtender.ExtState.mk [(0, [4, 5, 6])]
        [(0, [1, 2, 3])]).originalGeometries 0 = some [1, 2, 3] ∧
     mapGet (ModelExtender.ExtState.mk [(0, [4, 5, 6])]
        [(0, [1, 2, 3])]).scene 0 = some [4, 5, 6]) ∧
    mapGet (ModelExtender.extendModel
      (ModelExtender.ExtState.mk [(0, [4, 5, 6])] [(0, [1, 2, 3])])
      [0] 1 false).scene 0 = some [2, 2, 3] :=
  ⟨⟨by decide, by decide, by decide⟩,
   ((C4_extend_scales_first_coordinate [0] 0 1
     (ModelExtender.ExtState.mk [(0, [4, 5, 6])] [(0, [1, 2, 3])])
     [1, 2, 3] [4, 5, 6] (by decide) (by decide) (by decide) (by decide)).1).trans
     (by simp [ModelExtender.computeTarget, ModelExtender.scaleIdx]; norm_num)⟩

namespace TextureManager

theorem loadTexture_material (t : TexState) (path : String) (loadOk : Bool) :
    (loadTexture t path loadOk).1.material = t.material ∧
    (loadTexture t path loadOk).1.originalMaterial = t.originalMaterial := by
  unfold loadTexture
  split
  · exact ⟨rfl, rfl⟩
  · split
    · exact ⟨rfl, rfl⟩
    · exact ⟨rfl, rfl⟩

theorem applyMaterialToMesh_material_other (t : TexState) (mesh m1 m : Nat)
    (hm : m1 ≠ mesh) :
    mapGet (applyMaterialToMesh t m m1).material mesh = mapGet t.material mesh := by
  unfold applyMaterialToMesh
  cases hc : mapGet t.material m1 with
  | none => simp [mapGet_mapSet_ne _ _ _ _ hm]
  | some cur =>
    cases hs : (mapGet t.originalMaterial m1).isSome with
    | true => simp [hs, mapGet_mapSet_ne _ _ _ _ hm]
    | false => simp [hs, mapGet_mapSet_ne _ _ _ _ hm]

theorem applyMaterialToMesh_stash_other (t : TexState) (mesh m1 m : Nat)
    (hm : m1 ≠ mesh) :
    mapGet (applyMaterialToMesh t m m1).originalMaterial mesh
      = mapGet t.originalMaterial mesh := by
  unfold applyMaterialToMesh
  cases hc : mapGet t.material m1 with
  | none => simp
  | some cur =>
    cases hs : (mapGet t.originalMaterial m1).isSome with
    | true => simp [hs]
    | false => simp [hs, mapGet_mapSet_ne _ _ _ _ hm]

theorem StashInv_applyMaterialToMesh (mesh m0 : Nat) (t : TexState) (m m1 : Nat)
    (h : StashInv mesh m0 t) : StashInv mesh m0 (applyMaterialToMesh t m m1) := by
  by_cases hm : m1 = mesh
  · subst hm
    rcases h with ⟨hn, hmat⟩ | hsome
    · right
      unfold applyMaterialToMesh
      rw [hmat]
      simp [hn, mapGet_mapSet_self]
    · right
      unfold applyMaterialToMesh
      cases hc : mapGet t.material m1 with
      | none => simpa using hsome
      | some cur => simp [hsome, Option.isSome, hc]
  · rcases h with ⟨hn, hmat⟩ | hsome
    · left
      constructor
      · rw [applyMaterialToMesh_stash_other t mesh m1 m hm]; exact hn
      · rw [applyMaterialToMesh_material_other t mesh m1 m hm]; exact hmat
    · right
      rw [applyMaterialToMesh_stash_other t mesh m1 m hm]; exact hsome

theorem StashInv_applyTextureToModel (mesh m0 : Nat) (t : TexState)
    (model : List Nat) (path : String) (loadOk : Bool)
    (h : StashInv mesh m0 t) :
    StashInv mesh m0 (applyTextureToModel t model path loadOk) := by
  have hfields := loadTexture_material t path loadOk
  have h1 : StashInv mesh m0 (loadTexture t path loadOk).1 := by
    unfold StashInv
    rw [hfields.1, hfields.2]
    exact h
  unfold applyTextureToModel
  cases hl : loadTexture t path loadOk with
  | mk t1 ok =>
    rw [hl] at h1
    cases ok with
    | false => exact h1
    | true =>
      have h2 : StashInv mesh m0 { t1 with nextMaterial := t1.nextMaterial + 1 } := by
        unfold StashInv at h1 ⊢
        exact h1
      exact foldl_preserve _ (StashInv mesh m0)
        (fun tt mm hh => StashInv_applyMaterialToMesh mesh m0 tt t1.nextMaterial mm hh)
        model _ h2

theorem resetMaterialMesh_stash_eq (t : TexState) (m1 : Nat) :
    (resetMaterialMesh t m1).originalMaterial = t.originalMaterial := by
  unfold resetMaterialMesh
  cases h : mapGet t.originalMaterial m1 with
  | none => rfl
  | some om => rfl

theorem resetMaterialMesh_material_other (t : TexState) (mesh m1 : Nat)
    (hm : m1 ≠ mesh) :
    mapGet (resetMaterialMesh t m1).material mesh = mapGet t.material mesh := by
  unfold resetMaterialMesh
  cases h : mapGet t.originalMaterial m1 with
  | none => rfl
  | some om => simp [mapGet_mapSet_ne _ _ _ _ hm]

theorem resetMaterialMesh_at_self (t : TexState) (mesh m0 : Nat)
    (h : mapGet t.originalMaterial mesh = some m0) :
    mapGet (resetMaterialMesh t mesh).material mesh = some m0 := by
  unfold resetMaterialMesh
  rw [h]
  simp [mapGet_mapSet_self]

theorem resetMaterialMesh_noop_of_none (t : TexState) (mesh : Nat)
    (h : mapGet t.originalMaterial mesh = none) :
    resetMaterialMesh t mesh = t := by
  unfold resetMaterialMesh
  rw [h]

end TextureManager

open TextureManager in
/-- C8: for every mesh of a model, any sequence of texture applications via
`applyTextureToModel` (successful or failed loads) followed by
`resetModelMaterials` restores the mesh's material slot to the exact material
reference it held before the first texture swap on that mesh. -/
theorem C8_apply_then_reset_restores_material
    (model : List Nat) (mesh m0 : Nat) (t : TexState)
    (applies : List (String × Bool))
    (hmem : mesh ∈ model)
    (hmat : mapGet t.material mesh = some m0)
    (hstash : mapGet t.originalMaterial mesh = none) :
    mapGet (resetModelMaterials
      (applies.foldl (fun tt pb => applyTextureToModel tt model pb.1 pb.2) t)
      model).material mesh = some m0 := by
  have hinv : StashInv mesh m0
      (applies.foldl (fun tt pb => applyTextureToModel tt model pb.1 pb.2) t) :=
    foldl_preserve _ (StashInv mesh m0)
      (fun tt pb hh => StashInv_applyTextureToModel mesh m0 tt model pb.1 pb.2 hh)
      applies t (Or.inl ⟨hstash, hmat⟩)
  rcases hinv with ⟨hn, hmt⟩ | hsome
  · have key := foldl_preserve resetMaterialMesh
      (fun tt => mapGet tt.originalMaterial mesh = none ∧
                 mapGet tt.material mesh = some m0)
      (fun tt m1 hh => by
        obtain ⟨h1, h2⟩ := hh
        by_cases hme : m1 = mesh
        · subst hme
          have hnoop := resetMaterialMesh_noop_of_none tt m1 h1
          rw [hnoop]
          exact ⟨h1, h2⟩
        · constructor
          · rw [resetMaterialMesh_stash_eq]; exact h1
          · rw [resetMaterialMesh_material_other tt mesh m1 hme]; exact h2)
      model _ ⟨hn, hmt⟩
    exact key.2
  · have key := foldl_establish resetMaterialMesh
      (fun tt => mapGet tt.originalMaterial mesh = some m0)
      (fun tt => mapGet tt.originalMaterial mesh = some m0 ∧
                 mapGet tt.material mesh = some m0)
      mesh
      (fun tt m1 hh => by
        show mapGet (resetMaterialMesh tt m1).originalMaterial mesh = some m0
        rw [resetMaterialMesh_stash_eq]; exact hh)
      (fun tt m1 hh => by
        obtain ⟨h1, h2⟩ := hh
        by_cases hme : m1 = mesh
        · subst hme
          exact ⟨by rw [resetMaterialMesh_stash_eq]; exact h1,
                 resetMaterialMesh_at_self tt m1 m0 h1⟩
        · constructor
          · rw [resetMaterialMesh_stash_eq]; exact h1
          · rw [resetMaterialMesh_material_other tt mesh m1 hme]; exact h2)
      (fun tt hh => ⟨by rw [resetMaterialMesh_stash_eq]; exact hh,
                     resetMaterialMesh_at_self tt mesh m0 hh⟩)
      model _ hmem hsome
    exact key.2

/-- C8 witness: two meshes with materials 100 and 101, two successful texture
applications, then reset: mesh 0 gets material 100 back. -/
theorem C8_apply_then_reset_restores_material_witness :
    ((0 ∈ [0, 1]) ∧
     mapGet (TextureManager.TexState.mk [(0, 100), (1, 101)] [] [] 0).material 0
       = some 100 ∧
     mapGet (TextureManager.TexState.mk [(0, 100), (1, 101)] [] [] 0).originalMaterial 0
       = none) ∧
    mapGet (TextureManager.resetModelMaterials
      (([("red", true), ("blue", true)]).foldl
        (fun tt pb => TextureManager.applyTextureToModel tt [0, 1] pb.1 pb.2)
        (TextureManager.TexState.mk [(0, 100), (1, 101)] [] [] 0))
      [0, 1]).material 0 = some 100 :=
  ⟨⟨by decide, by decide, by decide⟩,
   C8_apply_then_reset_restores_material [0, 1] 0 100
     (TextureManager.TexState.mk [(0, 100), (1, 101)] [] [] 0)
     [("red", true), ("blue", true)]
     (by decide) (by decide) (by decide)⟩

namespace GravityManager

theorem updateObjectStep_fields {Q : Type} (rotX rotY rotZ : Q → ℚ → Q)
    (rand : Nat → ℚ × ℚ) (st : GravState Q) (object : Nat) :
    (updateObjectStep rotX rotY rotZ rand st object).objects = st.objects ∧
    (updateObjectStep rotX rotY rotZ rand st object).originalPositions
      = st.originalPositions ∧
    (updateObjectStep rotX rotY rotZ rand st object).originalRotations
      = st.originalRotations ∧
    (updateObjectStep rotX rotY rotZ rand st object).isActive = st.isActive := by
  unfold updateObjectStep
  cases hv : mapGet st.objectVelocities object with
  | none => exact ⟨rfl, rfl, rfl, rfl⟩
  | some velocity =>
    cases hr : mapGet st.objectRotations object with
    | none => exact ⟨rfl, rfl, rfl, rfl⟩
    | some rotation => exact ⟨rfl, rfl, rfl, rfl⟩

theorem update_fields {Q : Type} (rotX rotY rotZ : Q → ℚ → Q)
    (rand : Nat → ℚ × ℚ) (s : GravState Q) :
    (update rotX rotY rotZ rand s).objects = s.objects ∧
    (update rotX rotY rotZ rand s).originalPositions = s.originalPositions ∧
    (update rotX rotY rotZ rand s).originalRotations = s.originalRotations ∧
    (update rotX rotY rotZ rand s).isActive = s.isActive := by
  unfold update
  cases hact : s.isActive with
  | false => simp [hact]
  | true =>
    simp only [hact, Bool.not_true, Bool.false_eq_true, if_false]
    have key := foldl_preserve (updateObjectStep rotX rotY rotZ rand)
      (fun x => x.objects = s.objects ∧ x.originalPositions = s.originalPositions ∧
                x.originalRotations = s.originalRotations ∧ x.isActive = true)
      (fun x o hx => by
        have hf := updateObjectStep_fields rotX rotY rotZ rand x o
        exact ⟨hf.1.trans hx.1, hf.2.1.trans hx.2.1, hf.2.2.1.trans hx.2.2.1,
               hf.2.2.2.trans hx.2.2.2⟩)
      s.objects s ⟨rfl, rfl, rfl, hact⟩
    exact ⟨key.1, key.2.1, key.2.2.1, key.2.2.2⟩

theorem resetObjectStep_fields {Q : Type} (st : GravState Q) (object : Nat) :
    (resetObjectStep st object).objects = st.objects ∧
    (resetObjectStep st object).originalPositions = st.originalPositions ∧
    (resetObjectStep st object).originalRotations = st.originalRotations := by
  unfold resetObjectStep
  cases hp : mapGet st.originalPositions object with
  | none => exact ⟨rfl, rfl, rfl⟩
  | some p =>
    cases hq : mapGet st.originalRotations object with
    | none => exact ⟨rfl, rfl, rfl⟩
    | some q => exact ⟨rfl, rfl, rfl⟩

theorem resetObjectStep_at_self {Q : Type} (st : GravState Q) (object : Nat)
    (p : Vec3) (q : Q)
    (hp : mapGet st.originalPositions object = some p)
    (hq : mapGet st.originalRotations object = some q) :
    (resetObjectStep st object).positions object = p ∧
    (resetObjectStep st object).quats object = q := by
  unfold resetObjectStep
  rw [hp, hq]
  simp

theorem resetObjectStep_other {Q : Type} (st : GravState Q) (obj m1 : Nat)
    (hm : m1 ≠ obj) :
    (resetObjectStep st m1).positions obj = st.positions obj ∧
    (resetObjectStep st m1).quats obj = st.quats obj := by
  unfold resetObjectStep
  cases hp : mapGet st.originalPositions m1 with
  | none => exact ⟨rfl, rfl⟩
  | some p =>
    cases hq : mapGet st.originalRotations m1 with
    | none => exact ⟨rfl, rfl⟩
    | some q =>
      have hne : obj ≠ m1 := fun h => hm h.symm
      simp [hne]

theorem resetObjects_result {Q : Type} (s : GravState Q) (obj : Nat)
    (p : Vec3) (q : Q)
    (hobj : obj ∈ s.objects)
    (hp : mapGet s.originalPositions obj = some p)
    (hq : mapGet s.originalRotations obj = some q) :
    (resetObjects s).positions obj = p ∧ (resetObjects s).quats obj = q := by
  have key := foldl_establish resetObjectStep
    (fun st => mapGet st.originalPositions obj = some p ∧
               mapGet st.originalRotations obj = some q)
    (fun st => (mapGet st.originalPositions obj = some p ∧
                mapGet st.originalRotations obj = some q) ∧
               st.positions obj = p ∧ st.quats obj = q)
    obj
    (fun st m1 hh => by
      have hf := resetObjectStep_fields st m1
      exact ⟨by rw [hf.2.1]; exact hh.1, by rw [hf.2.2]; exact hh.2⟩)
    (fun st m1 hh => by
      have hf := resetObjectStep_fields st m1
      refine ⟨⟨by rw [hf.2.1]; exact hh.1.1, by rw [hf.2.2]; exact hh.1.2⟩, ?_⟩
      by_cases hme : m1 = obj
      · subst hme
        exact resetObjectStep_at_self st m1 p q hh.1.1 hh.1.2
      · have ho := resetObjectStep_other st obj m1 hme
        exact ⟨ho.1.trans hh.2.1, ho.2.trans hh.2.2⟩)
    (fun st hh => by
      have hf := resetObjectStep_fields st obj
      exact ⟨⟨by rw [hf.2.1]; exact hh.1, by rw [hf.2.2]; exact hh.2⟩,
             resetObjectStep_at_self st obj p q hh.1 hh.2⟩)
    s.objects s hobj ⟨hp, hq⟩
  exact key.2

theorem toggleGravity_on {Q : Type} (s : GravState Q) (hact : s.isActive = false) :
    toggleGravity s = { s with isActive := true } := by
  simp [toggleGravity, hact]

theorem toggleGravity_off {Q : Type} (s : GravState Q) (hact : s.isActive = true) :
    toggleGravity s = resetObjects { s with isActive := false } := by
  simp [toggleGravity, hact]

end GravityManager

open GravityManager in
/-- C7: toggling gravity on, running any number of update steps (with any
random draws and any library rotation functions), then toggling gravity off
restores a registered object's position and quaternion to exactly the values
recorded at registration. -/
theorem C7_gravity_toggle_roundtrip {Q : Type} (rotX rotY rotZ : Q → ℚ → Q)
    (s : GravState Q) (obj : Nat) (p : Vec3) (q : Q)
    (hobj : obj ∈ s.objects)
    (hp : mapGet s.originalPositions obj = some p)
    (hq : mapGet s.originalRotations obj = some q)
    (hact : s.isActive = false)
    (rands : List (Nat → ℚ × ℚ)) :
    (toggleGravity (rands.foldl (fun st r => update rotX rotY rotZ r st)
        (toggleGravity s))).positions obj = p ∧
    (toggleGravity (rands.foldl (fun st r => update rotX rotY rotZ r st)
        (toggleGravity s))).quats obj = q := by
  have h1 : toggleGravity s = { s with isActive := true } := toggleGravity_on s hact
  have hU : ∀ st : GravState Q,
      (obj ∈ st.objects ∧ mapGet st.originalPositions obj = some p ∧
       mapGet st.originalRotations obj = some q ∧ st.isActive = true) →
      ∀ r, (obj ∈ (update rotX rotY rotZ r st).objects ∧
        mapGet (update rotX rotY rotZ r st).originalPositions obj = some p ∧
        mapGet (update rotX rotY rotZ r st).originalRotations obj = some q ∧
        (update rotX rotY rotZ r st).isActive = true) := by
    intro st hst r
    have hf := update_fields rotX rotY rotZ r st
    exact ⟨by rw [hf.1]; exact hst.1, by rw [hf.2.1]; exact hst.2.1,
           by rw [hf.2.2.1]; exact hst.2.2.1, by rw [hf.2.2.2]; exact hst.2.2.2⟩
  have h2 := foldl_preserve (fun st r => update rotX rotY rotZ r st)
    (fun st => obj ∈ st.objects ∧ mapGet st.originalPositions obj = some p ∧
               mapGet st.originalRotations obj = some q ∧ st.isActive = true)
    (fun st r hst => hU st hst r)
    rands (toggleGravity s)
    (by rw [h1]; exact ⟨hobj, hp, hq, rfl⟩)
  set s2 := rands.foldl (fun st r => update rotX rotY rotZ r st) (toggleGravity s)
  have h3 : toggleGravity s2 = resetObjects { s2 with isActive := false } :=
    toggleGravity_off s2 h2.2.2.2
  rw [h3]
  exact resetObjects_result { s2 with isActive := false } obj p q
    h2.1 h2.2.1 h2.2.2.1

/-- C7 witness: one registered object with recorded transform
`((1, 2, 3), 5)`, one update step, with addition standing in for the axis
rotations. -/
theorem C7_gravity_toggle_roundtrip_witness :
    ((0 ∈ [0]) ∧
     mapGet [(0, (Vec3.mk 1 2 3))] 0 = some (Vec3.mk 1 2 3) ∧
     mapGet [(0, (5 : ℚ))] 0 = some 5) ∧
    ((GravityManager.toggleGravity
        (([fun _ => ((1 : ℚ), (1 : ℚ))]).foldl
          (fun st r => GravityManager.update
            (fun a b => a + b) (fun a b => a + b) (fun a b => a + b) r st)
          (GravityManager.toggleGravity
            (GravityManager.GravState.mk [0] [(0, Vec3.mk 1 2 3)] [(0, (5 : ℚ))]
              [(0, Vec3.mk 1 1 1)] [(0, Vec3.mk 1 1 1)] false
              (fun _ => Vec3.mk 1 2 3) (fun _ => 5))))).positions 0
        = Vec3.mk 1 2 3 ∧
     (GravityManager.toggleGravity
        (([fun _ => ((1 : ℚ), (1 : ℚ))]).foldl
          (fun st r => GravityManager.update
            (fun a b => a + b) (fun a b => a + b) (fun a b => a + b) r st)
          (GravityManager.toggleGravity
            (GravityManager.GravState.mk [0] [(0, Vec3.mk 1 2 3)] [(0, (5 : ℚ))]
              [(0, Vec3.mk 1 1 1)] [(0, Vec3.mk 1 1 1)] false
              (fun _ => Vec3.mk 1 2 3) (fun _ => 5))))).quats 0 = 5) :=
  ⟨⟨by decide, by decide, by decide⟩,
   C7_gravity_toggle_roundtrip
     (fun a b => a + b) (fun a b => a + b) (fun a b => a + b)
     (GravityManager.GravState.mk [0] [(0, Vec3.mk 1 2 3)] [(0, (5 : ℚ))]
       [(0, Vec3.mk 1 1 1)] [(0, Vec3.mk 1 1 1)] false
       (fun _ => Vec3.mk 1 2 3) (fun _ => 5))
     0 (Vec3.mk 1 2 3) 5
     (by decide) (by decide) (by decide) rfl
     [fun _ => ((1 : ℚ), (1 : ℚ))]⟩

open GravityManager in
/-- C10: `addObject` is idempotent on registered objects — for an object
already in the participant list it is a complete no-op, so the list gains no
duplicate and the stored original transform and physics are untouched. -/
theorem C10_addObject_idempotent {Q : Type} (s : GravState Q) (object : Nat)
    (rv rr : Vec3) (h : object ∈ s.objects) :
    addObject s object rv rr = s := by
  unfold addObject
  simp [h]

/-- C10 witness: re-adding the already-registered object 0 changes nothing. -/
theorem C10_addObject_idempotent_witness :
    ((0 ∈ [0]) ∧
     GravityManager.addObject
       (GravityManager.GravState.mk [0] [(0, Vec3.mk 1 2 3)] [(0, (5 : ℚ))]
         [(0, Vec3.mk 1 1 1)] [(0, Vec3.mk 1 1 1)] false
         (fun _ => Vec3.mk 1 2 3) (fun _ => 5))
       0 (Vec3.mk 9 9 9) (Vec3.mk 8 8 8)
     = GravityManager.GravState.mk [0] [(0, Vec3.mk 1 2 3)] [(0, (5 : ℚ))]
         [(0, Vec3.mk 1 1 1)] [(0, Vec3.mk 1 1 1)] false
         (fun _ => Vec3.mk 1 2 3) (fun _ => 5)) :=
  ⟨by decide,
   C10_addObject_idempotent
     (GravityManager.GravState.mk [0] [(0, Vec3.mk 1 2 3)] [(0, (5 : ℚ))]
       [(0, Vec3.mk 1 1 1)] [(0, Vec3.mk 1 1 1)] false
       (fun _ => Vec3.mk 1 2 3) (fun _ => 5))
     0 (Vec3.mk 9 9 9) (Vec3.mk 8 8 8) (by decide)⟩

/-- C9: when the underlying asset load rejects, `loadModel` propagates the
rejection, and `loadModelAtPosition` logs the error and returns null without
adding anything to the scene or to the loaded-model list. -/
theorem C9_failed_load_logs_and_adds_nothing
    (loader : String → Except String GLTF) (path : String) (e : String)
    (app : App.AppState) (position : Vec3)
    (herr : loader path = Except.error e) :
    ModelLoader.loadModel loader path = Except.error e ∧
    App.loadModelAtPosition app loader path position
      = ({ app with consoleErrors := app.consoleErrors ++ [e] }, none) := by
  have h1 : ModelLoader.loadModel loader path = Except.error e := by
    unfold ModelLoader.loadModel
    rw [herr]
  refine ⟨h1, ?_⟩
  unfold App.loadModelAtPosition
  rw [h1]

/-- C9 witness: a loader that always rejects with "load failed"; the app
state gains only the log entry and the result is null. -/
theorem C9_failed_load_logs_and_adds_nothing_witness :
    ((fun _ : String => (Except.error "load failed" : Except String GLTF))
        "models/bike.glb" = Except.error "load failed") ∧
    (ModelLoader.loadModel
        (fun _ : String => (Except.error "load failed" : Except String GLTF))
        "models/bike.glb" = Except.error "load failed" ∧
     App.loadModelAtPosition
        (App.AppState.mk [] [] (fun _ => Vec3.mk 0 0 0) [])
        (fun _ : String => (Except.error "load failed" : Except String GLTF))
        "models/bike.glb" (Vec3.mk 0 (3 / 5) 0)
      = ({ App.AppState.mk [] [] (fun _ => Vec3.mk 0 0 0) [] with
           consoleErrors :=
             (App.AppState.mk [] [] (fun _ => Vec3.mk 0 0 0) []).consoleErrors
               ++ ["load failed"] }, none)) :=
  ⟨rfl,
   C9_failed_load_logs_and_adds_nothing
     (fun _ : String => (Except.error "load failed" : Except String GLTF))
     "models/bike.glb" "load failed"
     (App.AppState.mk [] [] (fun _ => Vec3.mk 0 0 0) [])
     (Vec3.mk 0 (3 / 5) 0) rfl⟩

namespace SelectionManager

/-- `updateSelectionUI` never changes who is selected. -/
theorem updateSelectionUI_selectedObject (meshesOf : Nat → List Nat)
    (s : SelState) :
    (updateSelectionUI meshesOf s).selectedObject = s.selectedObject := by
  unfold updateSelectionUI
  cases hsel : s.selectedObject with
  | none => exact hsel
  | some sel =>
    cases htex : s.currentTexturePath with
    | none => simp [htex, hsel]
    | some path => simp [htex, hsel]

/-- `updateSelectionUI` on a selected object with no remembered texture:
show the panel and zero the extension factor. -/
theorem updateSelectionUI_of_some_none (meshesOf : Nat → List Nat)
    (s : SelState) (sel : Nat)
    (hsel : s.selectedObject = some sel)
    (htex : s.currentTexturePath = none) :
    updateSelectionUI meshesOf s
      = { s with panelVisible := true, currentExtensionFactor := 0 } := by
  simp only [updateSelectionUI, hsel, htex]

/-- `updateSelectionUI` on a selected object with a remembered texture path:
additionally re-apply that texture to the object's meshes. -/
theorem updateSelectionUI_of_some_some (meshesOf : Nat → List Nat)
    (s : SelState) (sel : Nat) (path : String)
    (hsel : s.selectedObject = some sel)
    (htex : s.currentTexturePath = some path) :
    updateSelectionUI meshesOf s
      = { s with
          panelVisible := true,
          currentExtensionFactor := 0,
          tex := TextureManager.applyTextureToModel s.tex (meshesOf sel) path true } := by
  simp only [updateSelectionUI, hsel, htex]

/-- `selectObject` from the unselected state skips the previous-object
bookkeeping: it just selects, zeroes the factor, restores the remembered
texture path, and refreshes the panel. -/
theorem selectObject_of_unselected (meshesOf : Nat → List Nat) (s : SelState)
    (object : Nat) (hsel : s.selectedObject = none) :
    selectObject meshesOf s object
      = updateSelectionUI meshesOf
          { s with
            boundingBox := some object,
            selectedObject := some object,
            currentExtensionFactor := 0,
            currentTexturePath := mapGet s.modelTextures object } := by
  unfold selectObject
  rw [hsel]

/-- The selection that `selectObject` produces is the object it was given. -/
theorem selectObject_selectedObject (meshesOf : Nat → List Nat) (s : SelState)
    (object : Nat) :
    (selectObject meshesOf s object).selectedObject = some object := by
  unfold selectObject
  rw [updateSelectionUI_selectedObject]

/-- `clearSelection` of a selected object carrying a current texture path:
reset its geometry, remember the path, clear the selection and hide the
panel. -/
theorem clearSelection_of_selected (meshesOf : Nat → List Nat) (s : SelState)
    (sel : Nat) (path : String)
    (hsel : s.selectedObject = some sel)
    (htex : s.currentTexturePath = some path) :
    clearSelection meshesOf s
      = { s with
          boundingBox := none,
          ext := ModelExtender.resetModel s.ext (meshesOf sel),
          modelTextures := mapSet s.modelTextures sel path,
          selectedObject := none,
          currentTexturePath := none,
          panelVisible := false } := by
  simp only [clearSelection, hsel, htex]

/-- `clearSelection` always ends unselected with the panel hidden. -/
theorem clearSelection_clears (meshesOf : Nat → List Nat) (s : SelState) :
    (clearSelection meshesOf s).selectedObject = none ∧
    (clearSelection meshesOf s).panelVisible = false := by
  unfold clearSelection
  exact ⟨rfl, rfl⟩

/-- `applyTexture` on a selected object with a genuinely new path: swap the
materials and record the path as current and in the per-object memory. -/
theorem applyTexture_of_new_path (meshesOf : Nat → List Nat) (s : SelState)
    (sel : Nat) (path : String) (loadOk : Bool)
    (hsel : s.selectedObject = some sel)
    (hne : some path ≠ s.currentTexturePath) :
    applyTexture meshesOf s path loadOk
      = { s with
          tex := TextureManager.applyTextureToModel s.tex (meshesOf sel) path loadOk,
          currentTexturePath := some path,
          modelTextures := mapSet s.modelTextures sel path } := by
  simp only [applyTexture, hsel, if_neg hne]

/-- `applyExtension` outside the dead-zone on a selected, non-animating
manager: run the animation to completion and record the factor. -/
theorem applyExtension_starts (meshesOf : Nat → List Nat) (s : SelState)
    (factor : ℚ) (sel : Nat)
    (hsel : s.selectedObject = some sel)
    (hanim : s.isAnimating = false)
    (hdead : ¬ |factor - s.currentExtensionFactor| < 1 / 100) :
    applyExtension meshesOf s factor
      = ({ s with
           ext := ModelExtender.extendModel s.ext (meshesOf sel) factor true,
           currentExtensionFactor := factor, isAnimating := false }, true) := by
  unfold applyExtension
  rw [hsel, hanim]
  simp only [Option.isNone_some, Bool.or_self, Bool.false_eq_true, if_false,
    if_neg hdead]

end SelectionManager

open SelectionManager in
/-- C5: a slider factor within the 0.01 dead-zone of the currently applied
factor starts no animation and leaves the selection manager's state
completely unchanged. -/
theorem C5_dead_zone_drops_call (meshesOf : Nat → List Nat) (s : SelState)
    (factor : ℚ)
    (h : |factor - s.currentExtensionFactor| < 1 / 100) :
    applyExtension meshesOf s factor = (s, false) := by
  unfold applyExtension
  by_cases h1 : (s.selectedObject.isNone || s.isAnimating) = true
  · rw [if_pos h1]
  · rw [if_neg h1, if_pos h]

/-- C5 witness: factor 5 re-applied when the current factor is already 5. -/
theorem C5_dead_zone_drops_call_witness :
    (|(5 : ℚ) - (SelectionManager.SelState.mk [0] (some 0) (some 0)
        (ModelExtender.ExtState.mk [(0, [1, 2, 3])] []) 5 false none []
        (TextureManager.TexState.mk [(0, 100)] [] [] 0) true).currentExtensionFactor|
      < 1 / 100) ∧
    SelectionManager.applyExtension (fun _ => [0])
      (SelectionManager.SelState.mk [0] (some 0) (some 0)
        (ModelExtender.ExtState.mk [(0, [1, 2, 3])] []) 5 false none []
        (TextureManager.TexState.mk [(0, 100)] [] [] 0) true) 5
      = (SelectionManager.SelState.mk [0] (some 0) (some 0)
          (ModelExtender.ExtState.mk [(0, [1, 2, 3])] []) 5 false none []
          (TextureManager.TexState.mk [(0, 100)] [] [] 0) true, false) :=
  ⟨by norm_num,
   C5_dead_zone_drops_call (fun _ => [0])
     (SelectionManager.SelState.mk [0] (some 0) (some 0)
       (ModelExtender.ExtState.mk [(0, [1, 2, 3])] []) 5 false none []
       (TextureManager.TexState.mk [(0, 100)] [] [] 0) true) 5
     (by norm_num)⟩

namespace SelectionManager

/-- The parent walk lands in the candidate list whenever the start or some
ancestor is in it. -/
theorem walkUp_mem (cands : List Nat) :
    ∀ (chain : List Nat) (o : Nat),
      (o ∈ cands ∨ ∃ a ∈ chain, a ∈ cands) → walkUp cands o chain ∈ cands := by
  intro chain
  induction chain with
  | nil =>
    intro o h
    rcases h with h | ⟨a, ha, _⟩
    · exact h
    · exact absurd ha (List.not_mem_nil a)
  | cons pa rest ih =>
    intro o h
    by_cases ho : o ∈ cands
    · simp only [walkUp, if_pos ho]
      exact ho
    · have h2 : pa ∈ cands ∨ ∃ a ∈ rest, a ∈ cands := by
        rcases h with h | ⟨a, ha, hac⟩
        · exact absurd h ho
        · rcases List.mem_cons.mp ha with heq | har
          · subst heq
            exact Or.inl hac
          · exact Or.inr ⟨a, har, hac⟩
      simp only [walkUp, if_neg ho]
      exact ih pa h2

/-- The parent walk never leaves the hit's own chain: it returns the start
object or one of its ancestors. -/
theorem walkUp_self_or_mem (cands : List Nat) :
    ∀ (chain : List Nat) (o : Nat),
      walkUp cands o chain = o ∨ walkUp cands o chain ∈ chain := by
  intro chain
  induction chain with
  | nil => intro o; exact Or.inl rfl
  | cons pa rest ih =>
    intro o
    by_cases ho : o ∈ cands
    · left
      simp only [walkUp, if_pos ho]
    · right
      simp only [walkUp, if_neg ho]
      rcases ih pa with heq | hmem
      · rw [heq]
        exact List.mem_cons_self pa rest
      · exact List.mem_cons_of_mem pa hmem

end SelectionManager

open SelectionManager in
/-- C6: a non-primary click that hits nothing clears the selection and hides
the panel; a click whose nearest hit is not itself registered but has a
registered ancestor selects a registered ancestor of the hit — an object
that is both in the candidate list and on the hit's parent chain — never the
sub-mesh that was hit. -/
theorem C6_right_click_behavior (meshesOf parentChain : Nat → List Nat)
    (s : SelState) :
    ((onRightClick meshesOf parentChain s []).selectedObject = none ∧
     (onRightClick meshesOf parentChain s []).panelVisible = false) ∧
    ∀ hit rest, hit ∉ s.selectableObjects →
      (∃ a ∈ parentChain hit, a ∈ s.selectableObjects) →
      ∃ r, (onRightClick meshesOf parentChain s (hit :: rest)).selectedObject
             = some r ∧
           r ∈ s.selectableObjects ∧ r ∈ parentChain hit ∧ r ≠ hit := by
  constructor
  · exact clearSelection_clears meshesOf s
  · intro hit rest hnot hex
    have hr : walkUp s.selectableObjects hit (parentChain hit)
        ∈ s.selectableObjects :=
      walkUp_mem s.selectableObjects (parentChain hit) hit (Or.inr hex)
    have hne : walkUp s.selectableObjects hit (parentChain hit) ≠ hit :=
      fun heq => hnot (heq ▸ hr)
    have hchain : walkUp s.selectableObjects hit (parentChain hit)
        ∈ parentChain hit := by
      rcases walkUp_self_or_mem s.selectableObjects (parentChain hit) hit with
        heq | hmem
      · exact absurd heq hne
      · exact hmem
    refine ⟨walkUp s.selectableObjects hit (parentChain hit), ?_, hr, hchain, hne⟩
    show (if walkUp s.selectableObjects hit (parentChain hit) ∈ s.selectableObjects
          then selectObject meshesOf s (walkUp s.selectableObjects hit (parentChain hit))
          else s).selectedObject
        = some (walkUp s.selectableObjects hit (parentChain hit))
    rw [if_pos hr]
    exact selectObject_selectedObject meshesOf s _

/-- C6 witness: candidate list `[0]`; hitting sub-mesh 5 whose ancestors are
`[3, 0]` selects a registered ancestor of 5 from the list, not 5 itself; an
empty hit list clears. -/
theorem C6_right_click_behavior_witness :
    ((5 ∉ ([0] : List Nat)) ∧ (∃ a ∈ [3, 0], a ∈ ([0] : List Nat))) ∧
    (∃ r, (SelectionManager.onRightClick (fun _ => []) (fun _ => [3, 0])
        (SelectionManager.SelState.mk [0] none none
          (ModelExtender.ExtState.mk [] []) 0 false none []
          (TextureManager.TexState.mk [] [] [] 0) false)
        [5, 7]).selectedObject = some r ∧ r ∈ ([0] : List Nat) ∧
        r ∈ [3, 0] ∧ r ≠ 5) :=
  ⟨⟨by decide, by decide⟩,
   (C6_right_click_behavior (fun _ => []) (fun _ => [3, 0])
     (SelectionManager.SelState.mk [0] none none
       (ModelExtender.ExtState.mk [] []) 0 false none []
       (TextureManager.TexState.mk [] [] [] 0) false)).2
     5 [7] (by decide) (by decide)⟩

namespace SelectionManager

/-- The select / extend / texture / deselect / reselect scenario, from an
unselected manager with no remembered texture for `A`: before deselection the
applied factor is `f`; after reselecting `A` the remembered texture path `p`
is restored (and re-applied), while the extension factor is back at 0. -/
theorem reselect_scenario (meshesOf : Nat → List Nat) (s : SelState)
    (A : Nat) (f : ℚ) (p : String) (b : Bool)
    (hsel : s.selectedObject = none)
    (hanim : s.isAnimating = false)
    (hmem0 : mapGet s.modelTextures A = none)
    (hdead : ¬ |f - 0| < 1 / 100) :
    ((applyExtension meshesOf (selectObject meshesOf s A) f).1.currentExtensionFactor
        = f) ∧
    (selectObject meshesOf
      (clearSelection meshesOf
        (applyTexture meshesOf
          ((applyExtension meshesOf (selectObject meshesOf s A) f).1) p b))
      A).currentTexturePath = some p ∧
    (selectObject meshesOf
      (clearSelection meshesOf
        (applyTexture meshesOf
          ((applyExtension meshesOf (selectObject meshesOf s A) f).1) p b))
      A).currentExtensionFactor = 0 ∧
    mapGet (selectObject meshesOf
      (clearSelection meshesOf
        (applyTexture meshesOf
          ((applyExtension meshesOf (selectObject meshesOf s A) f).1) p b))
      A).modelTextures A = some p ∧
    (selectObject meshesOf
      (clearSelection meshesOf
        (applyTexture meshesOf
          ((applyExtension meshesOf (selectObject meshesOf s A) f).1) p b))
      A).panelVisible = true := by
  have hu1 : selectObject meshesOf s A
      = { s with
          boundingBox := some A,
          selectedObject := some A,
          currentExtensionFactor := 0,
          currentTexturePath := none,
          panelVisible := true } := by
    rw [selectObject_of_unselected meshesOf s A hsel, hmem0]
    exact updateSelectionUI_of_some_none meshesOf _ A rfl rfl
  have hu2 : applyExtension meshesOf (selectObject meshesOf s A) f
      = ({ s with
           boundingBox := some A,
           selectedObject := some A,
           currentTexturePath := none,
           panelVisible := true,
           ext := ModelExtender.extendModel s.ext (meshesOf A) f true,
           currentExtensionFactor := f,
           isAnimating := false }, true) := by
    rw [hu1]
    exact applyExtension_starts meshesOf _ f A rfl hanim hdead
  have hu2a : (applyExtension meshesOf (selectObject meshesOf s A) f).1
      = { s with
          boundingBox := some A,
          selectedObject := some A,
          currentTexturePath := none,
          panelVisible := true,
          ext := ModelExtender.extendModel s.ext (meshesOf A) f true,
          currentExtensionFactor := f,
          isAnimating := false } := by
    rw [hu2]
  have hu3 : applyTexture meshesOf
      ((applyExtension meshesOf (selectObject meshesOf s A) f).1) p b
      = { s with
          boundingBox := some A,
          selectedObject := some A,
          panelVisible := true,
          ext := ModelExtender.extendModel s.ext (meshesOf A) f true,
          currentExtensionFactor := f,
          isAnimating := false,
          tex := TextureManager.applyTextureToModel s.tex (meshesOf A) p b,
          currentTexturePath := some p,
          modelTextures := mapSet s.modelTextures A p } := by
    rw [hu2a]
    exact applyTexture_of_new_path meshesOf _ A p b rfl (Option.some_ne_none p)
  have hu4 : clearSelection meshesOf (applyTexture meshesOf
      ((applyExtension meshesOf (selectObject meshesOf s A) f).1) p b)
      = { s with
          boundingBox := none,
          ext := ModelExtender.resetModel
                   (ModelExtender.extendModel s.ext (meshesOf A) f true)
                   (meshesOf A),
          currentExtensionFactor := f,
          isAnimating := false,
          tex := TextureManager.applyTextureToModel s.tex (meshesOf A) p b,
          modelTextures := mapSet (mapSet s.modelTextures A p) A p,
          selectedObject := none,
          currentTexturePath := none,
          panelVisible := false } := by
    rw [hu3]
    exact clearSelection_of_selected meshesOf _ A p rfl rfl
  have hu5 : selectObject meshesOf (clearSelection meshesOf (applyTexture meshesOf
      ((applyExtension meshesOf (selectObject meshesOf s A) f).1) p b)) A
      = { s with
          boundingBox := some A,
          selectedObject := some A,
          ext := ModelExtender.resetModel
                   (ModelExtender.extendModel s.ext (meshesOf A) f true)
                   (meshesOf A),
          currentExtensionFactor := 0,
          isAnimating := false,
          modelTextures := mapSet (mapSet s.modelTextures A p) A p,
          currentTexturePath := some p,
          tex := TextureManager.applyTextureToModel
                   (TextureManager.applyTextureToModel s.tex (meshesOf A) p b)
                   (meshesOf A) p true,
          panelVisible := true } := by
    rw [hu4]
    rw [selectObject_of_unselected meshesOf _ A rfl]
    rw [show mapGet (mapSet (mapSet s.modelTextures A p) A p) A = some p from
        mapGet_mapSet_self _ _ _]
    exact updateSelectionUI_of_some_some meshesOf _ A p rfl rfl
  refine ⟨?_, ?_, ?_, ?_, ?_⟩
  · rw [hu2a]
  · rw [hu5]
  · rw [hu5]
  · rw [hu5]
    exact mapGet_mapSet_self _ _ _
  · rw [hu5]

end SelectionManager

open SelectionManager in
/-- C3 (amended): in the memory-preserving variant, selecting `A`, applying
extension factor `f` and texture path `p`, deselecting, then reselecting `A`
restores only the last-applied texture path — it is remembered in the
per-object map and re-applied with the panel refresh — while the extension
factor, which was `f` before deselection, is reset to 0 by the reselection
(and the geometry is reset on deselection). -/
theorem C3_reselect_restores_texture_only (meshesOf : Nat → List Nat)
    (s : SelState) (A : Nat) (f : ℚ) (p : String) (b : Bool)
    (hsel : s.selectedObject = none)
    (hanim : s.isAnimating = false)
    (hmem0 : mapGet s.modelTextures A = none)
    (hdead : ¬ |f - 0| < 1 / 100) :
    ((applyExtension meshesOf (selectObject meshesOf s A) f).1.currentExtensionFactor
        = f) ∧
    (selectObject meshesOf
      (clearSelection meshesOf
        (applyTexture meshesOf
          ((applyExtension meshesOf (selectObject meshesOf s A) f).1) p b))
      A).currentTexturePath = some p ∧
    (selectObject meshesOf
      (clearSelection meshesOf
        (applyTexture meshesOf
          ((applyExtension meshesOf (selectObject meshesOf s A) f).1) p b))
      A).currentExtensionFactor = 0 ∧
    mapGet (selectObject meshesOf
      (clearSelection meshesOf
        (applyTexture meshesOf
          ((applyExtension meshesOf (selectObject meshesOf s A) f).1) p b))
      A).modelTextures A = some p ∧
    (selectObject meshesOf
      (clearSelection meshesOf
        (applyTexture meshesOf
          ((applyExtension meshesOf (selectObject meshesOf s A) f).1) p b))
      A).panelVisible = true :=
  reselect_scenario meshesOf s A f p b hsel hanim hmem0 hdead

/-- C3 counterexample: with factor 1/2 applied to object 0 before
deselection, reselection leaves the extension factor at 0, not 1/2 — the
last-applied extension factor is not restored, only the texture path is. -/
theorem C3_extension_factor_not_restored_counterexample :
    ((SelectionManager.applyExtension (fun _ => [])
        (SelectionManager.selectObject (fun _ => [])
          (SelectionManager.SelState.mk [0] none none
            (ModelExtender.ExtState.mk [] []) 0 false none []
            (TextureManager.TexState.mk [] [] [] 0) false) 0)
        (1 / 2)).1.currentExtensionFactor = 1 / 2) ∧
    (SelectionManager.selectObject (fun _ => [])
      (SelectionManager.clearSelection (fun _ => [])
        (SelectionManager.applyTexture (fun _ => [])
          ((SelectionManager.applyExtension (fun _ => [])
            (SelectionManager.selectObject (fun _ => [])
              (SelectionManager.SelState.mk [0] none none
                (ModelExtender.ExtState.mk [] []) 0 false none []
                (TextureManager.TexState.mk [] [] [] 0) false) 0)
            (1 / 2)).1) "red" true))
      0).currentExtensionFactor = 0 ∧
    ¬ ((0 : ℚ) = 1 / 2) := by
  have hdead : ¬ |(1 : ℚ) / 2 - 0| < 1 / 100 := by
    rw [show ((1 : ℚ) / 2 - 0) = 1 / 2 by norm_num,
        abs_of_pos (by norm_num : (0 : ℚ) < 1 / 2)]
    norm_num
  have h := SelectionManager.reselect_scenario (fun _ => [])
    (SelectionManager.SelState.mk [0] none none
      (ModelExtender.ExtState.mk [] []) 0 false none []
      (TextureManager.TexState.mk [] [] [] 0) false)
    0 (1 / 2) "red" true rfl rfl rfl hdead
  exact ⟨h.1, h.2.2.1, by norm_num⟩

/-- C3 witness: the amended claim at object 0, factor 1/2, texture path
"red". -/
theorem C3_reselect_restores_texture_only_witness :
    (¬ |(1 : ℚ) / 2 - 0| < 1 / 100) ∧
    (((SelectionManager.applyExtension (fun _ => [])
        (SelectionManager.selectObject (fun _ => [])
          (SelectionManager.SelState.mk [0] none none
            (ModelExtender.ExtState.mk [] []) 0 false none []
            (TextureManager.TexState.mk [] [] [] 0) false) 0)
        (1 / 2)).1.currentExtensionFactor = 1 / 2) ∧
     (SelectionManager.selectObject (fun _ => [])
       (SelectionManager.clearSelection (fun _ => [])
         (SelectionManager.applyTexture (fun _ => [])
           ((SelectionManager.applyExtension (fun _ => [])
             (SelectionManager.selectObject (fun _ => [])
               (SelectionManager.SelState.mk [0] none none
                 (ModelExtender.ExtState.mk [] []) 0 false none []
                 (TextureManager.TexState.mk [] [] [] 0) false) 0)
             (1 / 2)).1) "red" true))
       0).currentTexturePath = some "red" ∧
     (SelectionManager.selectObject (fun _ => [])
       (SelectionManager.clearSelection (fun _ => [])
         (SelectionManager.applyTexture (fun _ => [])
           ((SelectionManager.applyExtension (fun _ => [])
             (SelectionManager.selectObject (fun _ => [])
               (SelectionManager.SelState.mk [0] none none
                 (ModelExtender.ExtState.mk [] []) 0 false none []
                 (TextureManager.TexState.mk [] [] [] 0) false) 0)
             (1 / 2)).1) "red" true))
       0).currentExtensionFactor = 0 ∧
     mapGet (SelectionManager.selectObject (fun _ => [])
       (SelectionManager.clearSelection (fun _ => [])
         (SelectionManager.applyTexture (fun _ => [])
           ((SelectionManager.applyExtension (fun _ => [])
             (SelectionManager.selectObject (fun _ => [])
               (SelectionManager.SelState.mk [0] none none
                 (ModelExtender.ExtState.mk [] []) 0 false none []
                 (TextureManager.TexState.mk [] [] [] 0) false) 0)
             (1 / 2)).1) "red" true))
       0).modelTextures 0 = some "red" ∧
     (SelectionManager.selectObject (fun _ => [])
       (SelectionManager.clearSelection (fun _ => [])
         (SelectionManager.applyTexture (fun _ => [])
           ((SelectionManager.applyExtension (fun _ => [])
             (SelectionManager.selectObject (fun _ => [])
               (SelectionManager.SelState.mk [0] none none
                 (ModelExtender.ExtState.mk [] []) 0 false none []
                 (TextureManager.TexState.mk [] [] [] 0) false) 0)
             (1 / 2)).1) "red" true))
       0).panelVisible = true) :=
  ⟨by
    rw [show ((1 : ℚ) / 2 - 0) = 1 / 2 by norm_num,
        abs_of_pos (by norm_num : (0 : ℚ) < 1 / 2)]
    norm_num,
   C3_reselect_restores_texture_only (fun _ => [])
     (SelectionManager.SelState.mk [0] none none
       (ModelExtender.ExtState.mk [] []) 0 false none []
       (TextureManager.TexState.mk [] [] [] 0) false)
     0 (1 / 2) "red" true rfl rfl rfl
     (by
       rw [show ((1 : ℚ) / 2 - 0) = 1 / 2 by norm_num,
           abs_of_pos (by norm_num : (0 : ℚ) < 1 / 2)]
       norm_num)⟩
